import Mathlib

/-!
Shallow embedding of the EDA core (`eda_cli/core.py`): dataset summarisation,
missingness table, correlation matrix, top categories and the quality-flags
heuristic engine.  Python floats are modelled as exact rationals (`ℚ`); a
pandas cell is `Option Value` with `none` as the missing marker (`NaN`);
a pandas `DataFrame` is a `Table` of named, typed columns.  The Python dict
is modelled as an insertion-ordered association list.
-/

/-- A cell value: pandas cells hold either numbers or strings here. -/
inductive Value where
  | num (q : ℚ)
  | str (s : String)
deriving DecidableEq

/-- Python `str()` of a value, used by `astype(str)`. -/
def Value.toStr : Value → String
  | .num q => toString q
  | .str s => s

/-- The declared dtype of a column: drives `is_numeric_dtype`,
`is_object_dtype` and the `CategoricalDtype` check. -/
inductive Dtype where
  | numeric
  | object
  | categorical
deriving DecidableEq

/-- Display tag for a dtype, standing in for Python `str(s.dtype)`. -/
def Dtype.toStr : Dtype → String
  | .numeric => "number"
  | .object => "object"
  | .categorical => "category"

/-- A named column of cells; `none` cells are missing (NaN). -/
structure Column where
  name : String
  dtype : Dtype
  cells : List (Option Value)
deriving DecidableEq

/-- A rectangular table (`pd.DataFrame`): a row count and ordered columns. -/
structure Table where
  nRows : ℕ
  cols : List Column
deriving DecidableEq

/-- Well-formedness: every column has exactly `nRows` cells. -/
def Table.WF (t : Table) : Prop := ∀ c ∈ t.cols, c.cells.length = t.nRows

instance (t : Table) : Decidable t.WF := by
  unfold Table.WF; infer_instance

/-- The ordered column names (`df.columns`). -/
def Table.colNames (t : Table) : List String := t.cols.map Column.name

/-- Look a column up by name (`df[name]`). -/
def Table.col? (t : Table) (n : String) : Option Column :=
  t.cols.find? (fun c => c.name = n)

/-- Pandas `df.empty`: true when the table has zero rows or zero columns. -/
def Table.isEmptyDf (t : Table) : Prop := t.nRows = 0 ∨ t.cols = []

instance (t : Table) : Decidable t.isEmptyDf := by
  unfold Table.isEmptyDf; infer_instance

/-- The non-missing values of a column, in row order (`s.dropna()`). -/
def Column.nonMissing (c : Column) : List Value := c.cells.filterMap id

/-- Pandas `s.notna().sum()`. -/
def Column.nonNullCount (c : Column) : ℕ := c.nonMissing.length

/-- Pandas `s.isna().sum()`. -/
def Column.missingCount (c : Column) : ℕ := c.cells.countP (fun v => v.isNone)

/-- First-occurrence deduplication (pandas `unique()` keeps encounter
order); `seen` accumulates the values already emitted. -/
def uniqueFirstAux {α : Type} [DecidableEq α] (seen : List α) : List α → List α
  | [] => []
  | x :: xs =>
      if x ∈ seen then uniqueFirstAux seen xs
      else x :: uniqueFirstAux (x :: seen) xs

/-- Pandas `unique()`: distinct elements in first-encounter order. -/
def uniqueFirst {α : Type} [DecidableEq α] (l : List α) : List α :=
  uniqueFirstAux [] l

/-- Pandas `s.nunique(dropna=True)`: number of distinct non-missing values. -/
def Column.nuniqueDropna (c : Column) : ℕ := (uniqueFirst c.nonMissing).length

/-- The numeric (rational) payloads of the non-missing cells. -/
def Column.numVals (c : Column) : List ℚ :=
  c.cells.filterMap (fun v =>
    match v with
    | some (Value.num q) => some q
    | _ => none)

/-- Minimum of a list of rationals (total; the empty case is unreachable
behind the `non_null > 0` guard). -/
def minQ : List ℚ → ℚ
  | [] => 0
  | x :: xs => xs.foldl min x

/-- Maximum of a list of rationals (total; the empty case is unreachable
behind the guards in the source). -/
def maxQ : List ℚ → ℚ
  | [] => 0
  | x :: xs => xs.foldl max x

/-- Arithmetic mean (`s.mean()`), exact over ℚ. -/
def meanQ (l : List ℚ) : ℚ := l.sum / l.length

/-- Sample variance with the n-1 (sample) correction.  The source stores
`float(s.std())`, the square root of this quantity; the square root of a
rational is irrational in general, so the `std` field of the summary is
modelled by the variance.  (Pandas yields NaN for a single observation;
here the total division of ℚ makes that case `0`.)  No claim inspects the
value of this field. -/
def svarQ (l : List ℚ) : ℚ :=
  (l.map (fun x => (x - meanQ l) ^ 2)).sum / ((l.length : ℚ) - 1)

/-- Per-column summary record (`ColumnSummary` dataclass). -/
structure ColumnSummary where
  name : String
  dtype : String
  non_null : ℕ
  missing : ℕ
  missing_share : ℚ
  unique : ℕ
  example_values : List String
  is_numeric : Bool
  min : Option ℚ
  max : Option ℚ
  mean : Option ℚ
  std : Option ℚ
deriving DecidableEq

/-- Dataset-level summary (`DatasetSummary` dataclass). -/
structure DatasetSummary where
  n_rows : ℕ
  n_cols : ℕ
  columns : List ColumnSummary
deriving DecidableEq

/-- The body of the per-column loop of `summarize_dataset`. -/
def summarizeColumn (nRows k : ℕ) (c : Column) : ColumnSummary :=
  let non_null := c.nonNullCount
  let missing := nRows - non_null
  let missing_share : ℚ := if nRows > 0 then (missing : ℚ) / (nRows : ℚ) else 0
  let examples : List String :=
    if non_null > 0 then (uniqueFirst (c.nonMissing.map Value.toStr)).take k
    else []
  let isNum := c.dtype = Dtype.numeric
  { name := c.name
    dtype := c.dtype.toStr
    non_null := non_null
    missing := missing
    missing_share := missing_share
    unique := c.nuniqueDropna
    example_values := examples
    is_numeric := isNum
    min := if isNum ∧ non_null > 0 then some (minQ c.numVals) else none
    max := if isNum ∧ non_null > 0 then some (maxQ c.numVals) else none
    mean := if isNum ∧ non_null > 0 then some (meanQ c.numVals) else none
    std := if isNum ∧ non_null > 0 then some (svarQ c.numVals) else none }

/-- Source `summarize_dataset(df, example_values_per_column)`. -/
def summarize_dataset (df : Table) (example_values_per_column : ℕ) :
    DatasetSummary :=
  { n_rows := df.nRows
    n_cols := df.cols.length
    columns := df.cols.map (summarizeColumn df.nRows example_values_per_column) }

/-- Stable descending insertion by a key: the new element goes in front of
the first element whose key is `≤` its own, so earlier elements win ties.
This models the pandas `sort_values(ascending=False)` path, which reverses, runs a
stable ascending argsort and reverses again, keeping ties in original
order. -/
def insertDescBy {α β : Type} [LinearOrder β] (key : α → β) (r : α) :
    List α → List α
  | [] => [r]
  | x :: xs =>
      if key r < key x then x :: insertDescBy key r xs
      else r :: x :: xs

/-- Stable sort, descending by `key`. -/
def sortDescBy {α β : Type} [LinearOrder β] (key : α → β) : List α → List α
  | [] => []
  | x :: xs => insertDescBy key x (sortDescBy key xs)

/-- One row of the missingness table: index label, count and share. -/
structure MissingRow where
  name : String
  missing_count : ℕ
  missing_share : ℚ
deriving DecidableEq

/-- The frame returned by `missing_table`: its declared column headers and
its rows (indexed by column name). -/
structure MissingFrame where
  headers : List String
  rows : List MissingRow
deriving DecidableEq

/-- Source `missing_table(df)`: per-column missing count and share, sorted by
share descending; an empty frame (with its two headers) on `df.empty`. -/
def missing_table (df : Table) : MissingFrame :=
  if df.isEmptyDf then ⟨["missing_count", "missing_share"], []⟩
  else
    ⟨["missing_count", "missing_share"],
     sortDescBy MissingRow.missing_share
       (df.cols.map (fun c =>
         ⟨c.name, c.missingCount, (c.missingCount : ℚ) / (df.nRows : ℚ)⟩))⟩

/-- Values a quality flag can take; the Python dict is heterogeneous. -/
inductive FlagValue where
  | b (v : Bool)
  | q (v : ℚ)
  | n (v : ℕ)
  | s (v : String)
  | strList (v : List String)
  | natPairList (v : List (String × ℕ))
  | ratPairList (v : List (String × ℚ))
deriving DecidableEq

/-- Source `missing_df["missing_share"].max() if not missing_df.empty else 0.0`. -/
def maxMissingShare (m : MissingFrame) : ℚ :=
  maxQ (m.rows.map MissingRow.missing_share)

/-- Heuristic 1: names of columns whose summary has `unique == 1`. -/
def constantColumns (s : DatasetSummary) : List String :=
  (s.columns.filter (fun cs => cs.unique = 1)).map ColumnSummary.name

/-- Heuristic 2: non-numeric columns with more than
`high_cardinality_threshold` distinct values, as (name, unique) pairs. -/
def highCardinalityColumns (s : DatasetSummary) (hct : ℕ) :
    List (String × ℕ) :=
  s.columns.filterMap (fun cs =>
    if cs.is_numeric = false ∧ cs.unique > hct then some (cs.name, cs.unique)
    else none)

/-- Source `(df[name] == 0).sum()`: number of cells exactly equal to zero (a
missing cell or a string never compares equal to `0`). -/
def zeroCount (df : Table) (n : String) : ℕ :=
  match df.col? n with
  | some c => c.cells.count (some (Value.num 0))
  | none => 0

/-- Heuristic 3: numeric columns with at least one non-missing value whose
zero ratio exceeds the threshold, as (name, ratio) pairs. -/
def highZeroRatioColumns (s : DatasetSummary) (df : Table) (zrt : ℚ) :
    List (String × ℚ) :=
  s.columns.filterMap (fun cs =>
    if cs.is_numeric = true ∧ cs.non_null > 0 then
      if (zeroCount df cs.name : ℚ) / (cs.non_null : ℚ) > zrt then
        some (cs.name, (zeroCount df cs.name : ℚ) / (cs.non_null : ℚ))
      else none
    else none)

/-- Pandas `df.duplicated(subset=[c], keep=False)` row mask: a row is marked iff
its value in column `c` occurs more than once in that column (pandas
treats two NaNs as equal here). -/
def duplicatedMask (c : Column) : List Bool :=
  c.cells.map (fun v => decide (2 ≤ c.cells.count v))

/-- Source `df[df.duplicated(subset=[c], keep=False)].shape[0]`. -/
def dupCount (df : Table) (n : String) : ℕ :=
  match df.col? n with
  | some c => (duplicatedMask c).count true
  | none => 0

/-- The guard of heuristic 4: `if id_column and id_column in df.columns` — the
duplicate check runs only for a truthy (non-empty) name present in the
table; it yields the count paired with the checked column name. -/
def dupData (df : Table) (idColumn : Option String) : Option (ℕ × String) :=
  match idColumn with
  | none => none
  | some c =>
      if c ≠ "" ∧ c ∈ df.colNames then some (dupCount df c, c) else none

/-- The effective maximum missing share used by the engine:
`float(missing_df["missing_share"].max()) if not missing_df.empty else 0.0`. -/
def effMaxMissingShare (m : MissingFrame) : ℚ :=
  if m.rows ≠ [] then maxMissingShare m else 0

/-- The duplicate count the engine ends up with: the guarded count, or the
default `0` set before the guard. -/
def dupCountOf (df : Table) (idColumn : Option String) : ℕ :=
  ((dupData df idColumn).map Prod.fst).getD 0

/-- Clamp to `[0, 1]` (`max(0.0, min(1.0, score))`). -/
def clampQ (x : ℚ) : ℚ := max 0 (min 1 x)

/-- The score arithmetic of `compute_quality_flags` (source lines
240-260), over the already-computed components.  Total division on ℚ
returns 0 where Python would raise `ZeroDivisionError`; every such
division is behind a guard that is false whenever its denominator is
zero, so the guarded branches agree with the source wherever the source
returns. -/
def qualityScore (mms : ℚ) (nRows nCols : ℕ) (constL : List String)
    (hcL : List (String × ℕ)) (zrL : List (String × ℚ)) (dupN : ℕ) : ℚ :=
  let s0 : ℚ := 1 - mms * (3 / 10)
  let s1 : ℚ := if nRows < 100 then s0 - 1 / 5 else s0
  let s2 : ℚ := if nCols > 100 then s1 - 1 / 10 else s1
  let s3 : ℚ :=
    if constL.length > 0 then s2 - (1 / 5) * constL.length / nCols else s2
  let s4 : ℚ :=
    if hcL.length > 0 then s3 - (3 / 20) * hcL.length / nCols else s3
  let s5 : ℚ :=
    if zrL.length > 0 then s4 - (1 / 10) * zrL.length / nCols else s4
  let s6 : ℚ :=
    if dupN > 0 then s5 - (1 / 4) * dupN / nRows else s5
  clampQ s6

/-- Source `compute_quality_flags(summary, missing_df, df, ...)`: the returned
dict, as an insertion-ordered association list.  A key assigned twice
(the duplicate-flag defaults overwritten inside the guard) keeps its
original position, as Python dicts do. -/
def compute_quality_flags (summary : DatasetSummary) (missing_df : MissingFrame)
    (df : Table) (high_cardinality_threshold : ℕ) (zero_ratio_threshold : ℚ)
    (idColumn : Option String) : List (String × FlagValue) :=
  let mms : ℚ := effMaxMissingShare missing_df
  let constL := constantColumns summary
  let hcL := highCardinalityColumns summary high_cardinality_threshold
  let zrL := highZeroRatioColumns summary df zero_ratio_threshold
  let dup := dupData df idColumn
  let dupN : ℕ := dupCountOf df idColumn
  [("too_few_rows", FlagValue.b (decide (summary.n_rows < 100))),
   ("too_many_columns", FlagValue.b (decide (summary.n_cols > 100))),
   ("max_missing_share", FlagValue.q mms),
   ("too_many_missing", FlagValue.b (decide (mms > 1 / 2))),
   ("has_constant_columns", FlagValue.b (decide (constL.length > 0))),
   ("constant_columns", FlagValue.strList constL),
   ("n_constant_columns", FlagValue.n constL.length),
   ("has_high_cardinality_categoricals", FlagValue.b (decide (hcL.length > 0))),
   ("high_cardinality_columns", FlagValue.natPairList hcL),
   ("high_cardinality_threshold", FlagValue.n high_cardinality_threshold),
   ("has_many_zero_values", FlagValue.b (decide (zrL.length > 0))),
   ("high_zero_ratio_columns", FlagValue.ratPairList zrL),
   ("zero_ratio_threshold", FlagValue.q zero_ratio_threshold),
   ("has_suspicious_id_duplicates", FlagValue.b (decide (dupN > 0))),
   ("id_duplicates_count", FlagValue.n dupN)] ++
  (match dup with
   | some p => [("id_column_checked", FlagValue.s p.2)]
   | none => []) ++
  [("quality_score",
    FlagValue.q (qualityScore mms summary.n_rows summary.n_cols constL hcL zrL dupN))]

/-- One row of a `top_categories` value table. -/
structure CatRow where
  value : String
  count : ℕ
  share : ℚ
deriving DecidableEq

/-- Pandas `s.value_counts(dropna=True)` before sorting: the distinct non-missing
values in first-encounter order, each with its count. -/
def valueCountsRaw (c : Column) : List (Value × ℕ) :=
  (uniqueFirst c.nonMissing).map (fun v => (v, c.nonMissing.count v))

/-- Pandas `s.value_counts(dropna=True)`: counts sorted descending, ties kept in
first-encounter order. -/
def valueCounts (c : Column) : List (Value × ℕ) :=
  sortDescBy (fun p => p.2) (valueCountsRaw c)

/-- Source `top_categories(df, max_columns, top_k)`: for the first `max_columns`
object/categorical columns, the `top_k` most frequent values with shares
computed over the kept subset; columns whose (truncated) counts are empty
are skipped. -/
def top_categories (df : Table) (max_columns top_k : ℕ) :
    List (String × List CatRow) :=
  let candidates := df.cols.filter (fun c =>
    c.dtype = Dtype.object ∨ c.dtype = Dtype.categorical)
  (candidates.take max_columns).filterMap (fun c =>
    let vc := (valueCounts c).take top_k
    if vc = [] then none
    else
      let total : ℚ := (vc.map (fun p => (p.2 : ℚ))).sum
      some (c.name,
        vc.map (fun p => ⟨p.1.toStr, p.2, (p.2 : ℚ) / total⟩)))

/-- Pandas `df.select_dtypes(include="number")`. -/
def numericDf (t : Table) : Table :=
  ⟨t.nRows, t.cols.filter (fun c => c.dtype = Dtype.numeric)⟩

/-- The numeric payload of a cell, `none` on missing or non-numeric. -/
def qOfCell : Option Value → Option ℚ
  | some (Value.num q) => some q
  | _ => none

/-- Pairwise-complete observations: the rows where both series have a
numeric value present. -/
def pairsComplete (xs ys : List (Option Value)) : List (ℚ × ℚ) :=
  (xs.zip ys).filterMap (fun p =>
    match qOfCell p.1, qOfCell p.2 with
    | some a, some b => some (a, b)
    | _, _ => none)

/-- Centered second-moment sums over the complete pairs:
`(Σ(x-x̄)², Σ(y-ȳ)², Σ(x-x̄)(y-ȳ))`. -/
def covSums (ps : List (ℚ × ℚ)) : ℚ × ℚ × ℚ :=
  let mx := meanQ (ps.map Prod.fst)
  let my := meanQ (ps.map Prod.snd)
  ((ps.map (fun p => (p.1 - mx) ^ 2)).sum,
   (ps.map (fun p => (p.2 - my) ^ 2)).sum,
   (ps.map (fun p => (p.1 - mx) * (p.2 - my))).sum)

/-- One cell of `DataFrame.corr`: the Pearson r over the pairwise-complete
observations, `none` where pandas produces NaN (no complete pair, or a
zero divisor from a constant series). -/
noncomputable def pearsonCell (xs ys : List (Option Value)) : Option ℝ :=
  let ps := pairsComplete xs ys
  if ps = [] then none
  else
    let s := covSums ps
    if s.1 * s.2.1 = 0 then none
    else some ((s.2.2 : ℝ) / Real.sqrt ((s.1 : ℝ) * (s.2.1 : ℝ)))

/-- The frame returned by `correlation_matrix`: header names and the
square matrix of cells (`none` = NaN). -/
structure CorrFrame where
  headers : List String
  rows : List (List (Option ℝ))

/-- Source `correlation_matrix(df)`: the fully empty frame when the numeric
subframe is empty (zero numeric columns or zero rows), otherwise the
square Pearson matrix over the numeric columns. -/
noncomputable def correlation_matrix (df : Table) : CorrFrame :=
  let nd := numericDf df
  if nd.isEmptyDf then ⟨[], []⟩
  else
    ⟨nd.colNames,
     nd.cols.map (fun ci => nd.cols.map (fun cj => pearsonCell ci.cells cj.cells))⟩

/-- The scoring algorithm exactly as the specification words it, written
additively over the component counts: start at 1, subtract the missing
penalty, the size penalties and the four guarded heuristic penalties,
then clamp to `[0, 1]`.  (A `has_*` flag is true exactly when its count
is positive.) -/
def specScore (mms : ℚ) (nRows nCols nConst nHC nZero dupCnt : ℕ) : ℚ :=
  clampQ (1 - mms * (3 / 10)
    - (if nRows < 100 then (1 : ℚ) / 5 else 0)
    - (if nCols > 100 then (1 : ℚ) / 10 else 0)
    - (if 0 < nConst then (1 / 5 : ℚ) * nConst / nCols else 0)
    - (if 0 < nHC then (3 / 20 : ℚ) * nHC / nCols else 0)
    - (if 0 < nZero then (1 / 10 : ℚ) * nZero / nCols else 0)
    - (if 0 < dupCnt then (1 / 4 : ℚ) * dupCnt / nRows else 0))

/-- The score an empty (zero-row or zero-column) dataset actually gets:
only the unconditional size penalties can fire. -/
def emptyDataScore (nRows nCols : ℕ) : ℚ :=
  clampQ (1 - (if nRows < 100 then (1 : ℚ) / 5 else 0)
            - (if nCols > 100 then (1 : ℚ) / 10 else 0))

lemma clampQ_nonneg (x : ℚ) : 0 ≤ clampQ x := le_max_left 0 _

lemma clampQ_le_one (x : ℚ) : clampQ x ≤ 1 :=
  max_le (by norm_num) (min_le_left 1 x)

lemma qualityScore_eq_specScore (mms : ℚ) (nRows nCols : ℕ)
    (constL : List String) (hcL : List (String × ℕ)) (zrL : List (String × ℚ))
    (dupN : ℕ) :
    qualityScore mms nRows nCols constL hcL zrL dupN =
      specScore mms nRows nCols constL.length hcL.length zrL.length dupN := by
  unfold qualityScore specScore
  split_ifs <;> exact congrArg clampQ (by ring)


lemma cqf_lookup_quality_score (s : DatasetSummary) (m : MissingFrame)
    (df : Table) (hct : ℕ) (zrt : ℚ) (idc : Option String) :
    (compute_quality_flags s m df hct zrt idc).lookup "quality_score" =
      some (FlagValue.q (qualityScore (effMaxMissingShare m) s.n_rows s.n_cols
        (constantColumns s) (highCardinalityColumns s hct)
        (highZeroRatioColumns s df zrt) (dupCountOf df idc))) := by
  cases h : dupData df idc
  · simp only [compute_quality_flags, h]
    rfl
  · simp only [compute_quality_flags, h]
    rfl

lemma uniqueFirstAux_sublist {α : Type} [DecidableEq α] (seen l : List α) :
    (uniqueFirstAux seen l).Sublist l := by
  induction l generalizing seen with
  | nil => simp [uniqueFirstAux]
  | cons x xs ih =>
      by_cases hx : x ∈ seen
      · simp only [uniqueFirstAux, if_pos hx]
        exact (ih seen).trans (List.sublist_cons_self x xs)
      · simp only [uniqueFirstAux, if_neg hx]
        exact List.Sublist.cons₂ x (ih (x :: seen))

lemma mem_of_mem_uniqueFirstAux {α : Type} [DecidableEq α] {seen l : List α}
    {a : α} (h : a ∈ uniqueFirstAux seen l) : a ∈ l :=
  (uniqueFirstAux_sublist seen l).mem h

lemma not_mem_seen_of_mem_uniqueFirstAux {α : Type} [DecidableEq α]
    {seen l : List α} {a : α} (h : a ∈ uniqueFirstAux seen l) : a ∉ seen := by
  induction l generalizing seen with
  | nil => simp [uniqueFirstAux] at h
  | cons x xs ih =>
      by_cases hx : x ∈ seen
      · rw [uniqueFirstAux, if_pos hx] at h
        exact ih h
      · rw [uniqueFirstAux, if_neg hx] at h
        rcases List.mem_cons.mp h with rfl | h2
        · exact hx
        · intro hs
          exact ih h2 (List.mem_cons_of_mem x hs)

lemma uniqueFirstAux_nodup {α : Type} [DecidableEq α] (seen l : List α) :
    (uniqueFirstAux seen l).Nodup := by
  induction l generalizing seen with
  | nil => simp [uniqueFirstAux]
  | cons x xs ih =>
      by_cases hx : x ∈ seen
      · rw [uniqueFirstAux, if_pos hx]
        exact ih seen
      · rw [uniqueFirstAux, if_neg hx]
        refine List.nodup_cons.mpr ⟨fun hmem => ?_, ih (x :: seen)⟩
        exact not_mem_seen_of_mem_uniqueFirstAux hmem (List.mem_cons_self x seen)

lemma uniqueFirstAux_eq_nil_iff {α : Type} [DecidableEq α] (seen l : List α) :
    uniqueFirstAux seen l = [] ↔ ∀ a ∈ l, a ∈ seen := by
  induction l generalizing seen with
  | nil => simp [uniqueFirstAux]
  | cons x xs ih =>
      by_cases hx : x ∈ seen
      · rw [uniqueFirstAux, if_pos hx, ih]
        constructor
        · intro h a ha
          rcases List.mem_cons.mp ha with rfl | h2
          · exact hx
          · exact h a h2
        · intro h a ha
          exact h a (List.mem_cons_of_mem x ha)
      · rw [uniqueFirstAux, if_neg hx]
        constructor
        · intro h
          exact absurd h (List.cons_ne_nil _ _)
        · intro h
          exact absurd (h x (List.mem_cons_self x xs)) hx

lemma uniqueFirst_eq_nil_iff {α : Type} [DecidableEq α] (l : List α) :
    uniqueFirst l = [] ↔ l = [] := by
  rw [uniqueFirst, uniqueFirstAux_eq_nil_iff]
  constructor
  · intro h
    cases l with
    | nil => rfl
    | cons x xs => exact absurd (h x (List.mem_cons_self x xs)) (List.not_mem_nil x)
  · rintro rfl
    simp

lemma uniqueFirst_nodup {α : Type} [DecidableEq α] (l : List α) :
    (uniqueFirst l).Nodup := uniqueFirstAux_nodup [] l

lemma uniqueFirst_sublist {α : Type} [DecidableEq α] (l : List α) :
    (uniqueFirst l).Sublist l := uniqueFirstAux_sublist [] l

lemma uniqueFirst_all_eq {α : Type} [DecidableEq α] (x : α) (xs : List α)
    (h : ∀ a ∈ xs, a = x) : uniqueFirst (x :: xs) = [x] := by
  rw [uniqueFirst, uniqueFirstAux, if_neg (List.not_mem_nil x)]
  congr 1
  rw [uniqueFirstAux_eq_nil_iff]
  intro a ha
  rw [h a ha]
  exact List.mem_cons_self x []

lemma insertDescBy_perm {α β : Type} [LinearOrder β] (key : α → β) (r : α)
    (l : List α) : (insertDescBy key r l).Perm (r :: l) := by
  induction l with
  | nil => simp [insertDescBy]
  | cons x xs ih =>
      rw [insertDescBy]
      by_cases h : key r < key x
      · rw [if_pos h]
        exact (ih.cons x).trans (List.Perm.swap r x xs)
      · rw [if_neg h]

lemma sortDescBy_perm {α β : Type} [LinearOrder β] (key : α → β) (l : List α) :
    (sortDescBy key l).Perm l := by
  induction l with
  | nil => simp [sortDescBy]
  | cons x xs ih =>
      rw [sortDescBy]
      exact (insertDescBy_perm key x (sortDescBy key xs)).trans (ih.cons x)

lemma insertDescBy_pairwise {α β : Type} [LinearOrder β] (key : α → β) (r : α)
    (l : List α) (h : l.Pairwise (fun a b => key b ≤ key a)) :
    (insertDescBy key r l).Pairwise (fun a b => key b ≤ key a) := by
  induction l with
  | nil => simp [insertDescBy]
  | cons x xs ih =>
      rw [List.pairwise_cons] at h
      rw [insertDescBy]
      by_cases hlt : key r < key x
      · rw [if_pos hlt]
        refine List.pairwise_cons.mpr ⟨?_, ih h.2⟩
        intro y hy
        rcases List.mem_cons.mp ((insertDescBy_perm key r xs).mem_iff.mp hy) with rfl | hy2
        · exact le_of_lt hlt
        · exact h.1 y hy2
      · rw [if_neg hlt]
        refine List.pairwise_cons.mpr ⟨?_, List.pairwise_cons.mpr h⟩
        intro y hy
        rcases List.mem_cons.mp hy with rfl | hy2
        · exact not_lt.mp hlt
        · exact (h.1 y hy2).trans (not_lt.mp hlt)

lemma sortDescBy_pairwise {α β : Type} [LinearOrder β] (key : α → β)
    (l : List α) :
    (sortDescBy key l).Pairwise (fun a b => key b ≤ key a) := by
  induction l with
  | nil => simp [sortDescBy]
  | cons x xs ih =>
      rw [sortDescBy]
      exact insertDescBy_pairwise key x (sortDescBy key xs) ih

lemma filter_insertDescBy {α β : Type} [LinearOrder β] [DecidableEq β]
    (key : α → β) (r : α) (l : List α) (q : β) :
    (insertDescBy key r l).filter (fun a => decide (key a = q)) =
      if key r = q then r :: l.filter (fun a => decide (key a = q))
      else l.filter (fun a => decide (key a = q)) := by
  induction l with
  | nil =>
      by_cases hq : key r = q
      · simp [insertDescBy, hq]
      · simp [insertDescBy, hq]
  | cons x xs ih =>
      rw [insertDescBy]
      by_cases hlt : key r < key x
      · rw [if_pos hlt]
        by_cases hq : key r = q
        · have hxq : ¬ (key x = q) := by
            intro hx
            rw [hq] at hlt
            exact absurd hx (ne_of_gt hlt)
          rw [if_pos hq]
          rw [List.filter_cons, if_neg (by simpa using hxq), ih, if_pos hq,
            List.filter_cons, if_neg (by simpa using hxq)]
        · rw [if_neg hq]
          rw [List.filter_cons, ih, if_neg hq, List.filter_cons]
      · rw [if_neg hlt]
        by_cases hq : key r = q
        · rw [if_pos hq, List.filter_cons, if_pos (by simpa using hq)]
        · rw [if_neg hq, List.filter_cons, if_neg (by simpa using hq)]

lemma filter_sortDescBy {α β : Type} [LinearOrder β] [DecidableEq β]
    (key : α → β) (l : List α) (q : β) :
    (sortDescBy key l).filter (fun a => decide (key a = q)) =
      l.filter (fun a => decide (key a = q)) := by
  induction l with
  | nil => simp [sortDescBy]
  | cons x xs ih =>
      rw [sortDescBy, filter_insertDescBy, List.filter_cons]
      by_cases hq : key x = q
      · rw [if_pos hq, ih, if_pos (by simpa using hq)]
      · rw [if_neg hq, ih, if_neg (by simpa using hq)]

lemma cqf_lookup_has_dup (s : DatasetSummary) (m : MissingFrame) (df : Table)
    (hct : ℕ) (zrt : ℚ) (idc : Option String) :
    (compute_quality_flags s m df hct zrt idc).lookup
        "has_suspicious_id_duplicates" =
      some (FlagValue.b (decide (dupCountOf df idc > 0))) := by
  cases h : dupData df idc
  · simp only [compute_quality_flags, h]
    rfl
  · simp only [compute_quality_flags, h]
    rfl

lemma cqf_lookup_dup_count (s : DatasetSummary) (m : MissingFrame) (df : Table)
    (hct : ℕ) (zrt : ℚ) (idc : Option String) :
    (compute_quality_flags s m df hct zrt idc).lookup "id_duplicates_count" =
      some (FlagValue.n (dupCountOf df idc)) := by
  cases h : dupData df idc
  · simp only [compute_quality_flags, h]
    rfl
  · simp only [compute_quality_flags, h]
    rfl

lemma cqf_lookup_id_checked (s : DatasetSummary) (m : MissingFrame) (df : Table)
    (hct : ℕ) (zrt : ℚ) (idc : Option String) :
    (compute_quality_flags s m df hct zrt idc).lookup "id_column_checked" =
      (dupData df idc).map (fun p => FlagValue.s p.2) := by
  cases h : dupData df idc
  · simp only [compute_quality_flags, h]
    rfl
  · simp only [compute_quality_flags, h]
    rfl

lemma cqf_lookup_constant_columns (s : DatasetSummary) (m : MissingFrame)
    (df : Table) (hct : ℕ) (zrt : ℚ) (idc : Option String) :
    (compute_quality_flags s m df hct zrt idc).lookup "constant_columns" =
      some (FlagValue.strList (constantColumns s)) := by
  cases h : dupData df idc
  · simp only [compute_quality_flags, h]
    rfl
  · simp only [compute_quality_flags, h]
    rfl

lemma cqf_lookup_has_constant (s : DatasetSummary) (m : MissingFrame)
    (df : Table) (hct : ℕ) (zrt : ℚ) (idc : Option String) :
    (compute_quality_flags s m df hct zrt idc).lookup "has_constant_columns" =
      some (FlagValue.b (decide ((constantColumns s).length > 0))) := by
  cases h : dupData df idc
  · simp only [compute_quality_flags, h]
    rfl
  · simp only [compute_quality_flags, h]
    rfl

lemma cqf_lookup_n_constant (s : DatasetSummary) (m : MissingFrame)
    (df : Table) (hct : ℕ) (zrt : ℚ) (idc : Option String) :
    (compute_quality_flags s m df hct zrt idc).lookup "n_constant_columns" =
      some (FlagValue.n (constantColumns s).length) := by
  cases h : dupData df idc
  · simp only [compute_quality_flags, h]
    rfl
  · simp only [compute_quality_flags, h]
    rfl

/-- C1: for every summary, missing table and table (any thresholds and id
column), the `quality_score` entry of `compute_quality_flags` equals the
scoring algorithm as the specification words it — start at 1, subtract
`max_missing_share * 0.3`, `0.2` if `n_rows < 100`, `0.1` if
`n_cols > 100`, and the four guarded heuristic penalties, then clamp —
and that value always lies in `[0, 1]`. -/
theorem claim_c1_score_formula (s : DatasetSummary) (m : MissingFrame)
    (df : Table) (hct : ℕ) (zrt : ℚ) (idc : Option String) :
    (compute_quality_flags s m df hct zrt idc).lookup "quality_score" =
      some (FlagValue.q (specScore (effMaxMissingShare m) s.n_rows s.n_cols
        (constantColumns s).length (highCardinalityColumns s hct).length
        (highZeroRatioColumns s df zrt).length (dupCountOf df idc))) ∧
    0 ≤ specScore (effMaxMissingShare m) s.n_rows s.n_cols
        (constantColumns s).length (highCardinalityColumns s hct).length
        (highZeroRatioColumns s df zrt).length (dupCountOf df idc) ∧
    specScore (effMaxMissingShare m) s.n_rows s.n_cols
        (constantColumns s).length (highCardinalityColumns s hct).length
        (highZeroRatioColumns s df zrt).length (dupCountOf df idc) ≤ 1 := by
  refine ⟨?_, ?_, ?_⟩
  · rw [cqf_lookup_quality_score, qualityScore_eq_specScore]
  · unfold specScore
    exact clampQ_nonneg _
  · unfold specScore
    exact clampQ_le_one _

lemma cqf_lookup_has_hc (s : DatasetSummary) (m : MissingFrame) (df : Table)
    (hct : ℕ) (zrt : ℚ) (idc : Option String) :
    (compute_quality_flags s m df hct zrt idc).lookup
        "has_high_cardinality_categoricals" =
      some (FlagValue.b (decide ((highCardinalityColumns s hct).length > 0))) := by
  cases h : dupData df idc
  · simp only [compute_quality_flags, h]
    rfl
  · simp only [compute_quality_flags, h]
    rfl

lemma cqf_lookup_has_zero (s : DatasetSummary) (m : MissingFrame) (df : Table)
    (hct : ℕ) (zrt : ℚ) (idc : Option String) :
    (compute_quality_flags s m df hct zrt idc).lookup "has_many_zero_values" =
      some (FlagValue.b (decide ((highZeroRatioColumns s df zrt).length > 0))) := by
  cases h : dupData df idc
  · simp only [compute_quality_flags, h]
    rfl
  · simp only [compute_quality_flags, h]
    rfl

lemma missing_table_of_empty (df : Table) (h : df.isEmptyDf) :
    missing_table df = ⟨["missing_count", "missing_share"], []⟩ := by
  rw [missing_table, if_pos h]

lemma effMaxMissingShare_of_empty (df : Table) (h : df.isEmptyDf) :
    effMaxMissingShare (missing_table df) = 0 := by
  rw [missing_table_of_empty df h]
  simp [effMaxMissingShare]

lemma cells_eq_nil_of_wf_zero_rows {df : Table} (hwf : df.WF)
    (h0 : df.nRows = 0) {c : Column} (hc : c ∈ df.cols) : c.cells = [] :=
  List.eq_nil_of_length_eq_zero ((hwf c hc).trans h0)

lemma summarizeColumn_unique (nRows k : ℕ) (c : Column) :
    (summarizeColumn nRows k c).unique = c.nuniqueDropna := rfl

lemma summarizeColumn_non_null (nRows k : ℕ) (c : Column) :
    (summarizeColumn nRows k c).non_null = c.nonNullCount := rfl

lemma summarizeColumn_name (nRows k : ℕ) (c : Column) :
    (summarizeColumn nRows k c).name = c.name := rfl

lemma constantColumns_of_empty (df : Table) (k : ℕ) (hwf : df.WF)
    (h : df.isEmptyDf) : constantColumns (summarize_dataset df k) = [] := by
  rcases h with h0 | hnil
  · rw [constantColumns]
    have hf : (summarize_dataset df k).columns.filter
        (fun cs => cs.unique = 1) = [] := by
      rw [List.filter_eq_nil_iff]
      intro cs hcs
      rcases List.mem_map.mp hcs with ⟨c, hc, rfl⟩
      have hcells := cells_eq_nil_of_wf_zero_rows hwf h0 hc
      simp [summarizeColumn_unique, Column.nuniqueDropna, Column.nonMissing,
        hcells, uniqueFirst, uniqueFirstAux]
    rw [hf]
    rfl
  · simp [constantColumns, summarize_dataset, hnil]

lemma highCardinalityColumns_of_empty (df : Table) (k hct : ℕ) (hwf : df.WF)
    (h : df.isEmptyDf) :
    highCardinalityColumns (summarize_dataset df k) hct = [] := by
  rcases h with h0 | hnil
  · rw [highCardinalityColumns, List.filterMap_eq_nil_iff]
    intro cs hcs
    rcases List.mem_map.mp hcs with ⟨c, hc, rfl⟩
    have hcells := cells_eq_nil_of_wf_zero_rows hwf h0 hc
    have hu : (summarizeColumn df.nRows k c).unique = 0 := by
      simp [summarizeColumn_unique, Column.nuniqueDropna, Column.nonMissing,
        hcells, uniqueFirst, uniqueFirstAux]
    rw [if_neg]
    intro hcond
    rw [hu] at hcond
    exact absurd hcond.2 (Nat.not_lt_zero hct)
  · simp [highCardinalityColumns, summarize_dataset, hnil]

lemma highZeroRatioColumns_of_empty (df : Table) (k : ℕ) (zrt : ℚ)
    (hwf : df.WF) (h : df.isEmptyDf) :
    highZeroRatioColumns (summarize_dataset df k) df zrt = [] := by
  rcases h with h0 | hnil
  · rw [highZeroRatioColumns, List.filterMap_eq_nil_iff]
    intro cs hcs
    rcases List.mem_map.mp hcs with ⟨c, hc, rfl⟩
    have hcells := cells_eq_nil_of_wf_zero_rows hwf h0 hc
    have hn : (summarizeColumn df.nRows k c).non_null = 0 := by
      simp [summarizeColumn_non_null, Column.nonNullCount, Column.nonMissing,
        hcells]
    rw [if_neg]
    intro hcond
    rw [hn] at hcond
    exact absurd hcond.2 (Nat.lt_irrefl 0)
  · simp [highZeroRatioColumns, summarize_dataset, hnil]

lemma dupCount_of_wf_zero_rows (df : Table) (hwf : df.WF) (h0 : df.nRows = 0)
    (c : String) : dupCount df c = 0 := by
  rw [dupCount]
  cases hcol : df.col? c with
  | none => rfl
  | some col =>
      have hmem : col ∈ df.cols := List.mem_of_find?_eq_some hcol
      have hcells := cells_eq_nil_of_wf_zero_rows hwf h0 hmem
      simp [duplicatedMask, hcells]

lemma dupCountOf_of_empty (df : Table) (idc : Option String) (hwf : df.WF)
    (h : df.isEmptyDf) : dupCountOf df idc = 0 := by
  cases idc with
  | none => rfl
  | some c =>
      rw [dupCountOf, dupData]
      by_cases hg : c ≠ "" ∧ c ∈ df.colNames
      · rw [if_pos hg]
        rcases h with h0 | hnil
        · simp [dupCount_of_wf_zero_rows df hwf h0 c]
        · rw [Table.colNames, hnil] at hg
          exact absurd hg.2 (List.not_mem_nil c)
      · rw [if_neg hg]
        rfl

lemma qualityScore_of_empty_components (mms : ℚ) (nR nC : ℕ) (hm : mms = 0) :
    qualityScore mms nR nC [] [] [] 0 = emptyDataScore nR nC := by
  subst hm
  unfold qualityScore emptyDataScore
  simp only [List.length_nil, gt_iff_lt, Nat.lt_irrefl, if_false]
  split_ifs <;> exact congrArg clampQ (by ring)

/-- C2 counterexample: the empty dataset (zero rows, zero columns) gets
quality score `0.8`, not `1.0` — the `n_rows < 100` penalty fires. -/
theorem claim_c2_counterexample :
    (compute_quality_flags (summarize_dataset ⟨0, []⟩ 3) (missing_table ⟨0, []⟩)
        ⟨0, []⟩ 50 (1 / 2) none).lookup "quality_score" =
      some (FlagValue.q (4 / 5)) ∧ (4 / 5 : ℚ) ≠ 1 := by
  constructor
  · rw [cqf_lookup_quality_score,
      constantColumns_of_empty ⟨0, []⟩ 3 (by decide) (by decide),
      highCardinalityColumns_of_empty ⟨0, []⟩ 3 50 (by decide) (by decide),
      highZeroRatioColumns_of_empty ⟨0, []⟩ 3 (1 / 2) (by decide) (by decide),
      dupCountOf_of_empty ⟨0, []⟩ none (by decide) (by decide),
      qualityScore_of_empty_components _ _ _
        (effMaxMissingShare_of_empty ⟨0, []⟩ (by decide))]
    have h1 : emptyDataScore (summarize_dataset ⟨0, []⟩ 3).n_rows
        (summarize_dataset ⟨0, []⟩ 3).n_cols = 4 / 5 := by
      show emptyDataScore 0 0 = 4 / 5
      unfold emptyDataScore clampQ
      rw [if_pos (by norm_num : (0 : ℕ) < 100), if_neg (by norm_num : ¬ (0 : ℕ) > 100)]
      rw [show (1 : ℚ) - 1 / 5 - 0 = 4 / 5 by norm_num]
      rw [min_eq_right (by norm_num : (4 : ℚ) / 5 ≤ 1)]
      rw [max_eq_right (by norm_num : (0 : ℚ) ≤ 4 / 5)]
    rw [h1]
  · norm_num

/-- C2 (amended): for a well-formed zero-row or zero-column table, none of
the four guarded heuristic flags can be true (so no guarded division is
reached), and the quality score equals `1.0` minus the unconditional
missing-share term (zero for empty data) minus the `0.2` small-row
penalty when `n_rows < 100` and the `0.1` wide-column penalty when
`n_cols > 100`, clamped — in particular the empty `0 × 0` dataset scores
`0.8`, not `1.0`. -/
theorem claim_c2_amended (df : Table) (k hct : ℕ) (zrt : ℚ)
    (idc : Option String) (hwf : df.WF) (h : df.isEmptyDf) :
    (compute_quality_flags (summarize_dataset df k) (missing_table df) df hct
        zrt idc).lookup "has_constant_columns" = some (FlagValue.b false) ∧
    (compute_quality_flags (summarize_dataset df k) (missing_table df) df hct
        zrt idc).lookup "has_high_cardinality_categoricals" =
      some (FlagValue.b false) ∧
    (compute_quality_flags (summarize_dataset df k) (missing_table df) df hct
        zrt idc).lookup "has_many_zero_values" = some (FlagValue.b false) ∧
    (compute_quality_flags (summarize_dataset df k) (missing_table df) df hct
        zrt idc).lookup "has_suspicious_id_duplicates" =
      some (FlagValue.b false) ∧
    (compute_quality_flags (summarize_dataset df k) (missing_table df) df hct
        zrt idc).lookup "quality_score" =
      some (FlagValue.q (emptyDataScore df.nRows df.cols.length)) := by
  have hconst := constantColumns_of_empty df k hwf h
  have hhc := highCardinalityColumns_of_empty df k hct hwf h
  have hzr := highZeroRatioColumns_of_empty df k zrt hwf h
  have hdup := dupCountOf_of_empty df idc hwf h
  have hmms := effMaxMissingShare_of_empty df h
  refine ⟨?_, ?_, ?_, ?_, ?_⟩
  · rw [cqf_lookup_has_constant, hconst]
    rfl
  · rw [cqf_lookup_has_hc, hhc]
    rfl
  · rw [cqf_lookup_has_zero, hzr]
    rfl
  · rw [cqf_lookup_has_dup, hdup]
    rfl
  · rw [cqf_lookup_quality_score, hconst, hhc, hzr, hdup,
      qualityScore_of_empty_components _ _ _ hmms]
    rfl

/-- C2 amended, witnessed at the concrete empty table. -/
theorem claim_c2_amended_witness :
    Table.WF ⟨0, []⟩ ∧ Table.isEmptyDf ⟨0, []⟩ ∧
    (compute_quality_flags (summarize_dataset ⟨0, []⟩ 3) (missing_table ⟨0, []⟩)
        ⟨0, []⟩ 50 (1 / 2) none).lookup "quality_score" =
      some (FlagValue.q (emptyDataScore 0 0)) :=
  ⟨by decide, by decide,
   (claim_c2_amended ⟨0, []⟩ 3 50 (1 / 2) none (by decide) (by decide)).2.2.2.2⟩

/-- C3 counterexample: with `id_column = None` the duplicate-related keys
`has_suspicious_id_duplicates` and `id_duplicates_count` are NOT absent
from the returned mapping — they are present with their default values
`False` and `0`. -/
theorem claim_c3_counterexample :
    (compute_quality_flags
        (summarize_dataset ⟨2, [⟨"a", Dtype.numeric,
          [some (Value.num 1), some (Value.num 2)]⟩]⟩ 3)
        (missing_table ⟨2, [⟨"a", Dtype.numeric,
          [some (Value.num 1), some (Value.num 2)]⟩]⟩)
        ⟨2, [⟨"a", Dtype.numeric, [some (Value.num 1), some (Value.num 2)]⟩]⟩
        50 (1 / 2) none).lookup "has_suspicious_id_duplicates" =
      some (FlagValue.b false) ∧
    (compute_quality_flags
        (summarize_dataset ⟨2, [⟨"a", Dtype.numeric,
          [some (Value.num 1), some (Value.num 2)]⟩]⟩ 3)
        (missing_table ⟨2, [⟨"a", Dtype.numeric,
          [some (Value.num 1), some (Value.num 2)]⟩]⟩)
        ⟨2, [⟨"a", Dtype.numeric, [some (Value.num 1), some (Value.num 2)]⟩]⟩
        50 (1 / 2) none).lookup "id_duplicates_count" =
      some (FlagValue.n 0) := by
  constructor
  · rw [cqf_lookup_has_dup]
    rfl
  · rw [cqf_lookup_dup_count]
    rfl

/-- C3 (amended): when `id_column` is `None` or names a column not present
in the table, the duplicate check is silently skipped: the keys
`has_suspicious_id_duplicates` and `id_duplicates_count` remain present
with their default values `False` and `0`, and only `id_column_checked`
is absent from the returned mapping. -/
theorem claim_c3_amended (s : DatasetSummary) (m : MissingFrame) (df : Table)
    (hct : ℕ) (zrt : ℚ) (idc : Option String)
    (h : idc = none ∨ ∃ c, idc = some c ∧ c ∉ df.colNames) :
    (compute_quality_flags s m df hct zrt idc).lookup
        "has_suspicious_id_duplicates" = some (FlagValue.b false) ∧
    (compute_quality_flags s m df hct zrt idc).lookup "id_duplicates_count" =
      some (FlagValue.n 0) ∧
    (compute_quality_flags s m df hct zrt idc).lookup "id_column_checked" =
      none := by
  have hd : dupData df idc = none := by
    rcases h with rfl | ⟨c, rfl, hc⟩
    · rfl
    · rw [dupData, if_neg]
      intro hg
      exact hc hg.2
  have hn : dupCountOf df idc = 0 := by
    rw [dupCountOf, hd]
    rfl
  refine ⟨?_, ?_, ?_⟩
  · rw [cqf_lookup_has_dup, hn]
    rfl
  · rw [cqf_lookup_dup_count, hn]
  · rw [cqf_lookup_id_checked, hd]
    rfl

/-- C3 amended, witnessed at a concrete table and a nonexistent id column. -/
theorem claim_c3_amended_witness :
    (compute_quality_flags
        (summarize_dataset ⟨1, [⟨"a", Dtype.numeric, [some (Value.num 7)]⟩]⟩ 3)
        (missing_table ⟨1, [⟨"a", Dtype.numeric, [some (Value.num 7)]⟩]⟩)
        ⟨1, [⟨"a", Dtype.numeric, [some (Value.num 7)]⟩]⟩
        50 (1 / 2) (some "user_id")).lookup "id_column_checked" = none :=
  (claim_c3_amended
    (summarize_dataset ⟨1, [⟨"a", Dtype.numeric, [some (Value.num 7)]⟩]⟩ 3)
    (missing_table ⟨1, [⟨"a", Dtype.numeric, [some (Value.num 7)]⟩]⟩)
    ⟨1, [⟨"a", Dtype.numeric, [some (Value.num 7)]⟩]⟩
    50 (1 / 2) (some "user_id")
    (Or.inr ⟨"user_id", rfl, by decide⟩)).2.2

/-- C4: `constant_columns` lists exactly the summary columns with
`unique == 1` (and `has_constant_columns` / `n_constant_columns` agree
with that list); under `summarize_dataset`, a column whose non-missing
values are all identical (with at least one non-missing value) is
listed, and an all-missing column (`unique == 0`) is never listed. -/
theorem claim_c4_constant_columns (df : Table) (k hct : ℕ) (zrt : ℚ)
    (idc : Option String) (m : MissingFrame) :
    (compute_quality_flags (summarize_dataset df k) m df hct zrt idc).lookup
        "constant_columns" =
      some (FlagValue.strList (constantColumns (summarize_dataset df k))) ∧
    (compute_quality_flags (summarize_dataset df k) m df hct zrt idc).lookup
        "has_constant_columns" =
      some (FlagValue.b (decide (constantColumns (summarize_dataset df k) ≠ []))) ∧
    (compute_quality_flags (summarize_dataset df k) m df hct zrt idc).lookup
        "n_constant_columns" =
      some (FlagValue.n (constantColumns (summarize_dataset df k)).length) ∧
    (∀ nm, nm ∈ constantColumns (summarize_dataset df k) ↔
      ∃ cs ∈ (summarize_dataset df k).columns, cs.name = nm ∧ cs.unique = 1) ∧
    (∀ c ∈ df.cols, c.nonMissing ≠ [] →
      (∀ v ∈ c.nonMissing, ∀ w ∈ c.nonMissing, v = w) →
      c.name ∈ constantColumns (summarize_dataset df k)) ∧
    (df.colNames.Nodup → ∀ c ∈ df.cols, c.nonMissing = [] →
      c.name ∉ constantColumns (summarize_dataset df k)) := by
  refine ⟨?_, ?_, ?_, ?_, ?_, ?_⟩
  · exact cqf_lookup_constant_columns _ _ _ _ _ _
  · rw [cqf_lookup_has_constant]
    have : decide ((constantColumns (summarize_dataset df k)).length > 0) =
        decide (constantColumns (summarize_dataset df k) ≠ []) := by
      apply decide_eq_decide.mpr
      exact List.length_pos
    rw [this]
  · exact cqf_lookup_n_constant _ _ _ _ _ _
  · intro nm
    constructor
    · intro h
      rcases List.mem_map.mp h with ⟨cs, hcs, rfl⟩
      rcases List.mem_filter.mp hcs with ⟨h1, h2⟩
      exact ⟨cs, h1, rfl, of_decide_eq_true h2⟩
    · rintro ⟨cs, h1, hname, h2⟩
      exact List.mem_map.mpr
        ⟨cs, List.mem_filter.mpr ⟨h1, decide_eq_true h2⟩, hname⟩
  · intro c hc hne hall
    have hmem : summarizeColumn df.nRows k c ∈ (summarize_dataset df k).columns :=
      List.mem_map_of_mem _ hc
    have h1 : (summarizeColumn df.nRows k c).unique = 1 := by
      rw [summarizeColumn_unique, Column.nuniqueDropna]
      cases hnm : c.nonMissing with
      | nil => exact absurd hnm hne
      | cons x xs =>
          have hxall : ∀ a ∈ xs, a = x := by
            intro a ha
            have hax : a ∈ c.nonMissing := by
              rw [hnm]
              exact List.mem_cons_of_mem x ha
            have hxx : x ∈ c.nonMissing := by
              rw [hnm]
              exact List.mem_cons_self x xs
            exact hall a hax x hxx
          rw [uniqueFirst_all_eq x xs hxall]
          rfl
    exact List.mem_map.mpr
      ⟨summarizeColumn df.nRows k c,
       List.mem_filter.mpr ⟨hmem, decide_eq_true h1⟩, summarizeColumn_name df.nRows k c⟩
  · intro hnd c hc hnil hmem
    rcases List.mem_map.mp hmem with ⟨cs, hcs, hname⟩
    rcases List.mem_filter.mp hcs with ⟨h1, h2⟩
    rcases List.mem_map.mp h1 with ⟨c2, hc2, rfl⟩
    have hn2 : c2.name = c.name := hname
    have hcc : c2 = c := List.inj_on_of_nodup_map hnd hc2 hc hn2
    subst hcc
    have h0 : (summarizeColumn df.nRows k c2).unique = 0 := by
      rw [summarizeColumn_unique, Column.nuniqueDropna, hnil]
      rfl
    rw [h0] at h2
    exact absurd (of_decide_eq_true h2) (by norm_num)

/-- C4, witnessed: in a table with a constant column `[1,1,1,1]` the name
`constant_col` is listed in `constant_columns`. -/
theorem claim_c4_witness :
    "constant_col" ∈ constantColumns (summarize_dataset
      ⟨4, [⟨"id", Dtype.numeric,
              [some (Value.num 1), some (Value.num 2), some (Value.num 3),
               some (Value.num 4)]⟩,
           ⟨"constant_col", Dtype.numeric,
              [some (Value.num 1), some (Value.num 1), some (Value.num 1),
               some (Value.num 1)]⟩]⟩ 3) :=
  ((claim_c4_constant_columns
      ⟨4, [⟨"id", Dtype.numeric,
              [some (Value.num 1), some (Value.num 2), some (Value.num 3),
               some (Value.num 4)]⟩,
           ⟨"constant_col", Dtype.numeric,
              [some (Value.num 1), some (Value.num 1), some (Value.num 1),
               some (Value.num 1)]⟩]⟩ 3 50 (1 / 2) none
      ⟨["missing_count", "missing_share"], []⟩).2.2.2.2.1
    ⟨"constant_col", Dtype.numeric,
      [some (Value.num 1), some (Value.num 1), some (Value.num 1),
       some (Value.num 1)]⟩
    (by decide) (by decide) (by decide))

lemma dupCount_eq_countP (df : Table) (c : String) (col : Column)
    (hcol : df.col? c = some col) :
    dupCount df c =
      col.cells.countP (fun v => decide (1 < col.cells.count v)) := by
  rw [dupCount, hcol]
  show (duplicatedMask col).count true = _
  unfold duplicatedMask
  rw [List.count, List.countP_map]
  congr 1
  funext v
  simp [Function.comp]
  exact Iff.rfl

lemma col?_mem_names {df : Table} {c : String} {col : Column}
    (hcol : df.col? c = some col) : col ∈ df.cols ∧ c ∈ df.colNames := by
  have hmem : col ∈ df.cols := List.mem_of_find?_eq_some hcol
  have hp := List.find?_some hcol
  have hname : col.name = c := of_decide_eq_true hp
  exact ⟨hmem, List.mem_map.mpr ⟨col, hmem, hname⟩⟩

/-- C5: when `id_column` names an existing column, `id_duplicates_count`
is the number of rows whose value in that column occurs more than once in
the column — all occurrences, not just the extras beyond the first. -/
theorem claim_c5_dup_count (s : DatasetSummary) (m : MissingFrame) (df : Table)
    (hct : ℕ) (zrt : ℚ) (c : String) (col : Column)
    (hne : c ≠ "") (hcol : df.col? c = some col) :
    (compute_quality_flags s m df hct zrt (some c)).lookup
        "id_duplicates_count" =
      some (FlagValue.n
        (col.cells.countP (fun v => decide (1 < col.cells.count v)))) := by
  rw [cqf_lookup_dup_count]
  have hmem := (col?_mem_names hcol).2
  have hdd : dupData df (some c) = some (dupCount df c, c) := by
    rw [dupData, if_pos ⟨hne, hmem⟩]
  rw [dupCountOf, hdd]
  show some (FlagValue.n (dupCount df c)) = _
  rw [dupCount_eq_countP df c col hcol]

/-- C5, witnessed on `user_id = [1,2,3,1,4,2]`: the count is 4 (all four
rows whose id occurs twice). -/
theorem claim_c5_witness :
    (compute_quality_flags
        (summarize_dataset ⟨6, [⟨"user_id", Dtype.numeric,
          [some (Value.num 1), some (Value.num 2), some (Value.num 3),
           some (Value.num 1), some (Value.num 4), some (Value.num 2)]⟩]⟩ 3)
        (missing_table ⟨6, [⟨"user_id", Dtype.numeric,
          [some (Value.num 1), some (Value.num 2), some (Value.num 3),
           some (Value.num 1), some (Value.num 4), some (Value.num 2)]⟩]⟩)
        ⟨6, [⟨"user_id", Dtype.numeric,
          [some (Value.num 1), some (Value.num 2), some (Value.num 3),
           some (Value.num 1), some (Value.num 4), some (Value.num 2)]⟩]⟩
        50 (1 / 2) (some "user_id")).lookup "id_duplicates_count" =
      some (FlagValue.n 4) := by
  rw [claim_c5_dup_count _ _ _ 50 (1 / 2) "user_id"
    ⟨"user_id", Dtype.numeric,
      [some (Value.num 1), some (Value.num 2), some (Value.num 3),
       some (Value.num 1), some (Value.num 4), some (Value.num 2)]⟩
    (by decide) (by decide)]
  decide

/-- C6: `missing_table` keeps its two headers always; on an empty frame
(`df.empty`) the rows are empty; otherwise there is one row per column
(share = count / n_rows), sorted by share descending with ties kept in
stable original column order (rows of any fixed share keep their original
relative order). -/
theorem claim_c6_missing_table (df : Table) :
    (missing_table df).headers = ["missing_count", "missing_share"] ∧
    (df.isEmptyDf → (missing_table df).rows = []) ∧
    (¬ df.isEmptyDf →
      ((missing_table df).rows.Perm
        (df.cols.map (fun c => (⟨c.name, c.missingCount,
          (c.missingCount : ℚ) / (df.nRows : ℚ)⟩ : MissingRow))) ∧
      (missing_table df).rows.Pairwise
        (fun a b => b.missing_share ≤ a.missing_share) ∧
      (∀ r ∈ (missing_table df).rows,
        r.missing_share = (r.missing_count : ℚ) / (df.nRows : ℚ)) ∧
      ∀ q : ℚ, (missing_table df).rows.filter
          (fun r => decide (r.missing_share = q)) =
        (df.cols.map (fun c => (⟨c.name, c.missingCount,
          (c.missingCount : ℚ) / (df.nRows : ℚ)⟩ : MissingRow))).filter
          (fun r => decide (r.missing_share = q)))) := by
  refine ⟨?_, ?_, ?_⟩
  · rw [missing_table]
    by_cases h : df.isEmptyDf
    · rw [if_pos h]
    · rw [if_neg h]
  · intro h
    rw [missing_table_of_empty df h]
  · intro h
    rw [missing_table, if_neg h]
    refine ⟨sortDescBy_perm _ _, sortDescBy_pairwise _ _, ?_, ?_⟩
    · intro r hr
      have hr2 := (sortDescBy_perm MissingRow.missing_share _).mem_iff.mp hr
      rcases List.mem_map.mp hr2 with ⟨c, _, rfl⟩
      rfl
    · intro q
      exact filter_sortDescBy MissingRow.missing_share _ q

/-- C6, witnessed: the 4-row `age`/`height` table is not empty and its
missing table is sorted descending; the empty 2×0 table yields no rows. -/
theorem claim_c6_witness :
    ¬ Table.isEmptyDf ⟨4, [⟨"age", Dtype.numeric,
        [some (Value.num 10), some (Value.num 20), some (Value.num 30), none]⟩,
      ⟨"height", Dtype.numeric,
        [some (Value.num 140), some (Value.num 150), some (Value.num 160),
         some (Value.num 170)]⟩]⟩ ∧
    (missing_table ⟨4, [⟨"age", Dtype.numeric,
        [some (Value.num 10), some (Value.num 20), some (Value.num 30), none]⟩,
      ⟨"height", Dtype.numeric,
        [some (Value.num 140), some (Value.num 150), some (Value.num 160),
         some (Value.num 170)]⟩]⟩).rows.Pairwise
      (fun a b => b.missing_share ≤ a.missing_share) ∧
    (missing_table ⟨2, []⟩).rows = [] :=
  ⟨by decide,
   ((claim_c6_missing_table _).2.2 (by decide)).2.1,
   (claim_c6_missing_table ⟨2, []⟩).2.1 (by decide)⟩

/-- C7: every column summary satisfies `non_null + missing = n_rows`,
`0 ≤ missing_share ≤ 1` (`0` when `n_rows = 0`), and the dataset summary
has `n_cols = len(columns)` with column names mirroring the input
order. -/
theorem claim_c7_summary_invariants (df : Table) (k : ℕ) (hwf : df.WF) :
    (∀ cs ∈ (summarize_dataset df k).columns,
      cs.non_null + cs.missing = df.nRows ∧
      0 ≤ cs.missing_share ∧ cs.missing_share ≤ 1 ∧
      (df.nRows = 0 → cs.missing_share = 0)) ∧
    (summarize_dataset df k).n_cols = (summarize_dataset df k).columns.length ∧
    (summarize_dataset df k).columns.map ColumnSummary.name = df.colNames := by
  refine ⟨?_, ?_, ?_⟩
  · intro cs hcs
    rcases List.mem_map.mp hcs with ⟨c, hc, rfl⟩
    have hle : c.nonNullCount ≤ df.nRows := by
      rw [← hwf c hc]
      exact List.length_filterMap_le id c.cells
    refine ⟨Nat.add_sub_cancel' hle, ?_, ?_, ?_⟩
    · show 0 ≤ (if df.nRows > 0 then
        ((df.nRows - c.nonNullCount : ℕ) : ℚ) / (df.nRows : ℚ) else 0)
      by_cases hpos : df.nRows > 0
      · rw [if_pos hpos]
        exact div_nonneg (Nat.cast_nonneg _) (Nat.cast_nonneg _)
      · rw [if_neg hpos]
    · show (if df.nRows > 0 then
        ((df.nRows - c.nonNullCount : ℕ) : ℚ) / (df.nRows : ℚ) else 0) ≤ 1
      by_cases hpos : df.nRows > 0
      · rw [if_pos hpos]
        apply div_le_one_of_le₀
        · exact_mod_cast Nat.sub_le df.nRows c.nonNullCount
        · exact Nat.cast_nonneg _
      · rw [if_neg hpos]
        norm_num
    · intro h0
      show (if df.nRows > 0 then
        ((df.nRows - c.nonNullCount : ℕ) : ℚ) / (df.nRows : ℚ) else 0) = 0
      rw [if_neg]
      rw [h0]
      exact Nat.lt_irrefl 0
  · show df.cols.length = (df.cols.map (summarizeColumn df.nRows k)).length
    rw [List.length_map]
  · rw [Table.colNames]
    show (df.cols.map (summarizeColumn df.nRows k)).map ColumnSummary.name = _
    rw [List.map_map]
    rfl

/-- C7, witnessed at the 4-row sample table. -/
theorem claim_c7_witness :
    Table.WF ⟨4, [⟨"age", Dtype.numeric,
        [some (Value.num 10), some (Value.num 20), some (Value.num 30), none]⟩,
      ⟨"city", Dtype.object,
        [some (Value.str "A"), some (Value.str "B"), some (Value.str "A"),
         none]⟩]⟩ ∧
    (summarize_dataset ⟨4, [⟨"age", Dtype.numeric,
        [some (Value.num 10), some (Value.num 20), some (Value.num 30), none]⟩,
      ⟨"city", Dtype.object,
        [some (Value.str "A"), some (Value.str "B"), some (Value.str "A"),
         none]⟩]⟩ 3).columns.map ColumnSummary.name =
      Table.colNames ⟨4, [⟨"age", Dtype.numeric,
        [some (Value.num 10), some (Value.num 20), some (Value.num 30), none]⟩,
      ⟨"city", Dtype.object,
        [some (Value.str "A"), some (Value.str "B"), some (Value.str "A"),
         none]⟩]⟩ :=
  ⟨by decide,
   (claim_c7_summary_invariants _ 3 (by decide)).2.2⟩

lemma sum_map_div {α : Type} (l : List α) (f : α → ℚ) (d : ℚ) :
    (l.map (fun a => f a / d)).sum = (l.map f).sum / d := by
  induction l with
  | nil => simp
  | cons x xs ih => simp [ih, add_div]

lemma valueCounts_pos (c : Column) (p : Value × ℕ) (hp : p ∈ valueCounts c) :
    0 < p.2 := by
  have h1 := (sortDescBy_perm (fun p => p.2) (valueCountsRaw c)).mem_iff.mp hp
  rcases List.mem_map.mp h1 with ⟨v, hv, rfl⟩
  exact List.count_pos_iff.mpr (mem_of_mem_uniqueFirstAux hv)

lemma valueCounts_of_no_values (c : Column) (h : c.nonMissing = []) :
    valueCounts c = [] := by
  unfold valueCounts valueCountsRaw
  rw [h]
  rfl

/-- C8: every entry of `top_categories` has at most `top_k` rows whose
shares sum to exactly 1 (shares are computed over the kept subset), and a
selected column with zero non-missing values is omitted entirely. -/
theorem claim_c8_top_categories (df : Table) (mc k : ℕ)
    (hnd : df.colNames.Nodup) :
    (∀ nm rows, (nm, rows) ∈ top_categories df mc k →
      rows.length ≤ k ∧ (rows.map CatRow.share).sum = 1) ∧
    (∀ c ∈ (df.cols.filter (fun c =>
        c.dtype = Dtype.object ∨ c.dtype = Dtype.categorical)).take mc,
      c.nonNullCount = 0 →
      c.name ∉ (top_categories df mc k).map Prod.fst) := by
  constructor
  · intro nm rows hmem
    rw [top_categories] at hmem
    rcases List.mem_filterMap.mp hmem with ⟨c, hc, hfc⟩
    by_cases hvc : (valueCounts c).take k = []
    · rw [if_pos hvc] at hfc
      exact absurd hfc (by simp)
    · rw [if_neg hvc] at hfc
      injection hfc with hfc2
      injection hfc2 with hnm hrows
      subst hnm
      subst hrows
      constructor
      · rw [List.length_map]
        exact List.length_take_le k (valueCounts c)
      · have hcomp : (((valueCounts c).take k).map
            (fun p => (⟨p.1.toStr, p.2,
              (p.2 : ℚ) / ((((valueCounts c).take k).map
                (fun p => (p.2 : ℚ))).sum)⟩ : CatRow))).map CatRow.share =
            ((valueCounts c).take k).map (fun p => (p.2 : ℚ) /
              ((((valueCounts c).take k).map (fun p => (p.2 : ℚ))).sum)) := by
          rw [List.map_map]
          rfl
        rw [hcomp, sum_map_div]
        apply div_self
        have hpos : 0 < (((valueCounts c).take k).map
            (fun p => (p.2 : ℚ))).sum := by
          apply List.sum_pos
          · intro x hx
            rcases List.mem_map.mp hx with ⟨p, hp, rfl⟩
            have := valueCounts_pos c p (List.mem_of_mem_take hp)
            exact_mod_cast this
          · intro hn
            rw [List.map_eq_nil_iff] at hn
            exact hvc hn
        exact ne_of_gt hpos
  · intro c hc h0 hmem
    rcases List.mem_map.mp hmem with ⟨pr, hpr, hname⟩
    rw [top_categories] at hpr
    rcases List.mem_filterMap.mp hpr with ⟨c2, hc2, hfc2⟩
    by_cases hvc : (valueCounts c2).take k = []
    · rw [if_pos hvc] at hfc2
      exact absurd hfc2 (by simp)
    · rw [if_neg hvc] at hfc2
      injection hfc2 with hfc3
      have hn2 : c2.name = c.name := by
        rw [← hname, ← hfc3]
      have hc2' : c2 ∈ df.cols :=
        List.mem_of_mem_filter (List.mem_of_mem_take hc2)
      have hcin : c ∈ df.cols :=
        List.mem_of_mem_filter (List.mem_of_mem_take hc)
      have hcc : c2 = c := List.inj_on_of_nodup_map hnd hc2' hcin hn2
      subst hcc
      have hnil : c2.nonMissing = [] := List.length_eq_zero.mp h0
      rw [valueCounts_of_no_values c2 hnil] at hvc
      exact hvc (by simp)

/-- C8, witnessed on the `city` column `["A","B","A",None]` with
`top_k = 2`: two rows whose shares `2/3` and `1/3` sum to 1. -/
theorem claim_c8_witness :
    (Table.colNames ⟨4, [⟨"city", Dtype.object,
        [some (Value.str "A"), some (Value.str "B"), some (Value.str "A"),
         none]⟩,
      ⟨"empty_city", Dtype.object, [none, none, none, none]⟩]⟩).Nodup ∧
    "empty_city" ∉ (top_categories ⟨4, [⟨"city", Dtype.object,
        [some (Value.str "A"), some (Value.str "B"), some (Value.str "A"),
         none]⟩,
      ⟨"empty_city", Dtype.object, [none, none, none, none]⟩]⟩ 5 2).map
        Prod.fst :=
  ⟨by decide,
   (claim_c8_top_categories ⟨4, [⟨"city", Dtype.object,
        [some (Value.str "A"), some (Value.str "B"), some (Value.str "A"),
         none]⟩,
      ⟨"empty_city", Dtype.object, [none, none, none, none]⟩]⟩ 5 2
      (by decide)).2
    ⟨"empty_city", Dtype.object, [none, none, none, none]⟩
    (by decide) (by decide)⟩

lemma zip_self {α : Type} (l : List α) : l.zip l = l.map (fun a => (a, a)) := by
  induction l with
  | nil => rfl
  | cons x xs ih => simp [ih]

lemma filterMap_option_map {α β γ : Type} (l : List α) (f : α → Option β)
    (g : β → γ) :
    l.filterMap (fun a => (f a).map g) = (l.filterMap f).map g := by
  induction l with
  | nil => rfl
  | cons x xs ih =>
      cases hfx : f x <;> simp [List.filterMap_cons, hfx, ih]

lemma pairsComplete_self (xs : List (Option Value)) :
    pairsComplete xs xs = (xs.filterMap qOfCell).map (fun q => (q, q)) := by
  rw [pairsComplete, zip_self, List.filterMap_map, ← filterMap_option_map]
  congr 1
  funext v
  show (match qOfCell v, qOfCell v with
    | some a, some b => some (a, b)
    | _, _ => none) = (qOfCell v).map (fun q => (q, q))
  cases qOfCell v <;> rfl

lemma covSums_self (xs : List (Option Value)) :
    (covSums (pairsComplete xs xs)).2.1 = (covSums (pairsComplete xs xs)).1 ∧
    (covSums (pairsComplete xs xs)).2.2 = (covSums (pairsComplete xs xs)).1 ∧
    0 ≤ (covSums (pairsComplete xs xs)).1 := by
  rw [pairsComplete_self]
  simp only [covSums, List.map_map]
  have hfst : (Prod.fst ∘ fun q : ℚ => (q, q)) = fun q : ℚ => q := rfl
  have hsnd : (Prod.snd ∘ fun q : ℚ => (q, q)) = fun q : ℚ => q := rfl
  rw [hfst, hsnd]
  refine ⟨rfl, ?_, ?_⟩
  · apply congrArg List.sum
    apply List.map_congr_left
    intro q _
    show (q - _) * (q - _) = (q - _) ^ 2
    rw [pow_two]
  · apply List.sum_nonneg
    intro x hx
    rcases List.mem_map.mp hx with ⟨q, _, rfl⟩
    exact sq_nonneg _

lemma pearsonCell_self_eq_one (xs : List (Option Value))
    (h : (covSums (pairsComplete xs xs)).1 ≠ 0) :
    pearsonCell xs xs = some 1 := by
  have hps : pairsComplete xs xs ≠ [] := by
    intro hnil
    apply h
    rw [hnil]
    rfl
  obtain ⟨h21, h22, hnn⟩ := covSums_self xs
  simp only [pearsonCell]
  rw [if_neg hps, if_neg (by rw [h21]; exact mul_ne_zero h h)]
  rw [h22, h21]
  have hsq : Real.sqrt (((covSums (pairsComplete xs xs)).1 : ℝ) *
      ((covSums (pairsComplete xs xs)).1 : ℝ)) =
      ((covSums (pairsComplete xs xs)).1 : ℝ) :=
    Real.sqrt_mul_self (by exact_mod_cast hnn)
  rw [hsq]
  rw [div_self (by exact_mod_cast h)]

/-- C9 counterexample: a table with one numeric column but zero rows gets
the fully empty correlation frame, although it has a numeric column —
"fully empty exactly when zero numeric columns" fails. -/
theorem claim_c9_counterexample :
    (correlation_matrix ⟨0, [⟨"a", Dtype.numeric, []⟩]⟩).headers = [] ∧
    (correlation_matrix ⟨0, [⟨"a", Dtype.numeric, []⟩]⟩).rows = [] ∧
    (numericDf ⟨0, [⟨"a", Dtype.numeric, []⟩]⟩).cols.length = 1 := by
  have h : correlation_matrix ⟨0, [⟨"a", Dtype.numeric, []⟩]⟩ = ⟨[], []⟩ := by
    have hemp : (numericDf ⟨0, [⟨"a", Dtype.numeric, []⟩]⟩).isEmptyDf :=
      Or.inl rfl
    simp only [correlation_matrix]
    rw [if_pos hemp]
  exact ⟨by rw [h], by rw [h], by decide⟩

/-- C9 (amended): `correlation_matrix` returns the fully empty frame
exactly when the numeric subframe is empty — zero numeric columns or zero
rows; otherwise it is square over the numeric columns with
pairwise-complete Pearson cells, and with exactly one numeric column (and
at least one row) whose self-covariance is nonzero the result is the 1×1
matrix `[[1.0]]`. -/
theorem claim_c9_amended (df : Table) :
    ((correlation_matrix df).headers = [] ∧ (correlation_matrix df).rows = [] ↔
      (numericDf df).isEmptyDf) ∧
    (¬ (numericDf df).isEmptyDf →
      ((correlation_matrix df).headers = (numericDf df).colNames ∧
       (correlation_matrix df).rows =
         (numericDf df).cols.map (fun ci => (numericDf df).cols.map
           (fun cj => pearsonCell ci.cells cj.cells)) ∧
       (correlation_matrix df).rows.length = (numericDf df).cols.length ∧
       ∀ r ∈ (correlation_matrix df).rows,
         r.length = (numericDf df).cols.length)) ∧
    (∀ c, (numericDf df).cols = [c] → df.nRows ≠ 0 →
      (covSums (pairsComplete c.cells c.cells)).1 ≠ 0 →
      (correlation_matrix df).rows = [[some (1 : ℝ)]]) := by
  by_cases he : (numericDf df).isEmptyDf
  · have h : correlation_matrix df = ⟨[], []⟩ := by
      simp only [correlation_matrix]
      rw [if_pos he]
    refine ⟨?_, ?_, ?_⟩
    · rw [h]
      exact ⟨fun _ => he, fun _ => ⟨rfl, rfl⟩⟩
    · intro hne
      exact absurd he hne
    · intro c hc h0 hv
      exfalso
      rcases he with h1 | h2
      · exact h0 h1
      · rw [hc] at h2
        exact List.cons_ne_nil c [] h2
  · have h : correlation_matrix df =
        ⟨(numericDf df).colNames,
         (numericDf df).cols.map (fun ci => (numericDf df).cols.map
           (fun cj => pearsonCell ci.cells cj.cells))⟩ := by
      simp only [correlation_matrix]
      rw [if_neg he]
    refine ⟨?_, ?_, ?_⟩
    · rw [h]
      constructor
      · rintro ⟨h1, h2⟩
        exfalso
        apply he
        exact Or.inr (List.map_eq_nil_iff.mp h1)
      · intro hee
        exact absurd hee he
    · intro _
      rw [h]
      refine ⟨rfl, rfl, List.length_map _ _, ?_⟩
      intro r hr
      rcases List.mem_map.mp hr with ⟨ci, _, rfl⟩
      exact List.length_map _ _
    · intro c hc h0 hv
      rw [h, hc]
      simp only [List.map_cons, List.map_nil]
      rw [pearsonCell_self_eq_one c.cells hv]

/-- C9 amended, witnessed: one numeric column `[1, 2]` over two rows gives
the 1×1 matrix `[[1.0]]`. -/
theorem claim_c9_witness :
    (correlation_matrix ⟨2, [⟨"a", Dtype.numeric,
        [some (Value.num 1), some (Value.num 2)]⟩]⟩).rows = [[some (1 : ℝ)]] :=
  (claim_c9_amended ⟨2, [⟨"a", Dtype.numeric,
      [some (Value.num 1), some (Value.num 2)]⟩]⟩).2.2
    ⟨"a", Dtype.numeric, [some (Value.num 1), some (Value.num 2)]⟩
    (by decide) (by decide)
    (by
      have hp : pairsComplete
          [some (Value.num 1), some (Value.num 2)]
          [some (Value.num 1), some (Value.num 2)] = [(1, 1), (2, 2)] := rfl
      rw [hp]
      norm_num [covSums, meanQ])

/-- C10 counterexample: with `example_values_per_column = 0` a column with
one non-missing value still gets an empty `example_values`, so "empty
exactly when the column has zero non-missing values" fails. -/
theorem claim_c10_counterexample :
    (summarize_dataset ⟨1, [⟨"a", Dtype.object, [some (Value.str "x")]⟩]⟩
        0).columns.map ColumnSummary.example_values = [[]] ∧
    (summarize_dataset ⟨1, [⟨"a", Dtype.object, [some (Value.str "x")]⟩]⟩
        0).columns.map ColumnSummary.non_null = [1] := by
  exact ⟨rfl, rfl⟩

lemma mem_uniqueFirstAux_iff {α : Type} [DecidableEq α] (seen l : List α)
    (a : α) : a ∈ uniqueFirstAux seen l ↔ a ∈ l ∧ a ∉ seen := by
  induction l generalizing seen with
  | nil => simp [uniqueFirstAux]
  | cons x xs ih =>
      by_cases hx : x ∈ seen
      · rw [uniqueFirstAux, if_pos hx, ih]
        constructor
        · rintro ⟨h1, h2⟩
          exact ⟨List.mem_cons_of_mem x h1, h2⟩
        · rintro ⟨h1, h2⟩
          rcases List.mem_cons.mp h1 with rfl | h3
          · exact absurd hx h2
          · exact ⟨h3, h2⟩
      · rw [uniqueFirstAux, if_neg hx, List.mem_cons, ih]
        constructor
        · rintro (rfl | ⟨h1, h2⟩)
          · exact ⟨List.mem_cons_self _ _, hx⟩
          · exact ⟨List.mem_cons_of_mem x h1,
              fun hs => h2 (List.mem_cons_of_mem x hs)⟩
        · rintro ⟨h1, h2⟩
          rcases List.mem_cons.mp h1 with rfl | h3
          · exact Or.inl rfl
          · by_cases hax : a = x
            · exact Or.inl hax
            · refine Or.inr ⟨h3, fun hs => ?_⟩
              rcases List.mem_cons.mp hs with h4 | h5
              · exact hax h4
              · exact h2 h5

lemma mem_uniqueFirst_iff {α : Type} [DecidableEq α] (l : List α) (a : α) :
    a ∈ uniqueFirst l ↔ a ∈ l := by
  rw [uniqueFirst, mem_uniqueFirstAux_iff]
  simp

lemma uniqueFirstAux_pairwise_indexOf {α : Type} [DecidableEq α]
    (seen l : List α) :
    (uniqueFirstAux seen l).Pairwise
      (fun a b => l.indexOf a < l.indexOf b) := by
  induction l generalizing seen with
  | nil => simp [uniqueFirstAux]
  | cons x xs ih =>
      by_cases hx : x ∈ seen
      · rw [uniqueFirstAux, if_pos hx]
        refine List.Pairwise.imp_of_mem ?_ (ih seen)
        intro a b ha hb hab
        have hax : a ≠ x := fun h =>
          not_mem_seen_of_mem_uniqueFirstAux ha (h ▸ hx)
        have hbx : b ≠ x := fun h =>
          not_mem_seen_of_mem_uniqueFirstAux hb (h ▸ hx)
        rw [List.indexOf_cons_ne xs (Ne.symm hax),
          List.indexOf_cons_ne xs (Ne.symm hbx)]
        exact Nat.succ_lt_succ hab
      · rw [uniqueFirstAux, if_neg hx]
        refine List.pairwise_cons.mpr ⟨?_, ?_⟩
        · intro b hb
          have hbx : b ≠ x := fun h =>
            not_mem_seen_of_mem_uniqueFirstAux hb
              (by rw [h]; exact List.mem_cons_self x seen)
          rw [List.indexOf_cons_self, List.indexOf_cons_ne xs (Ne.symm hbx)]
          exact Nat.succ_pos _
        · refine List.Pairwise.imp_of_mem ?_ (ih (x :: seen))
          intro a b ha hb hab
          have hax : a ≠ x := fun h =>
            not_mem_seen_of_mem_uniqueFirstAux ha
              (by rw [h]; exact List.mem_cons_self x seen)
          have hbx : b ≠ x := fun h =>
            not_mem_seen_of_mem_uniqueFirstAux hb
              (by rw [h]; exact List.mem_cons_self x seen)
          rw [List.indexOf_cons_ne xs (Ne.symm hax),
            List.indexOf_cons_ne xs (Ne.symm hbx)]
          exact Nat.succ_lt_succ hab

lemma uniqueFirst_pairwise_indexOf {α : Type} [DecidableEq α] (l : List α) :
    (uniqueFirst l).Pairwise (fun a b => l.indexOf a < l.indexOf b) :=
  uniqueFirstAux_pairwise_indexOf [] l

lemma eq_uniqueFirst_of_nodup_mem_indexOf {α : Type} [DecidableEq α]
    (l u : List α) (h1 : u.Nodup) (h2 : ∀ a, a ∈ u ↔ a ∈ l)
    (h3 : u.Pairwise (fun a b => l.indexOf a < l.indexOf b)) :
    u = uniqueFirst l := by
  haveI : IsAntisymm α (fun a b => l.indexOf a < l.indexOf b) := ⟨by
    intro a b hab hba
    exact absurd (hab.trans hba) (lt_irrefl _)⟩
  refine List.eq_of_perm_of_sorted ?_ h3 (uniqueFirst_pairwise_indexOf l)
  apply (List.perm_ext_iff_of_nodup h1 (uniqueFirst_nodup l)).mpr
  intro a
  rw [h2 a, mem_uniqueFirst_iff]

/-- C10 (amended): `example_values` equals the first
`example_values_per_column` entries of the stringified non-missing values
deduplicated to first occurrences in encounter order: it is
`(uniqueFirst (stringified non-missing values)).take k`, where
`uniqueFirst l` is pinned as THE duplicate-free list holding exactly the
members of `l` strictly ordered by first-occurrence index (any list with
those three properties is equal to it) — so two distinct underlying
values with identical string representations contribute one example; and
the sequence is empty exactly when the column has zero non-missing
values or `example_values_per_column = 0`. -/
theorem claim_c10_example_values (df : Table) (k : ℕ) (c : Column)
    (hc : c ∈ df.cols) :
    summarizeColumn df.nRows k c ∈ (summarize_dataset df k).columns ∧
    (summarizeColumn df.nRows k c).example_values =
      (uniqueFirst (c.nonMissing.map Value.toStr)).take k ∧
    (uniqueFirst (c.nonMissing.map Value.toStr)).Nodup ∧
    (∀ a, a ∈ uniqueFirst (c.nonMissing.map Value.toStr) ↔
      a ∈ c.nonMissing.map Value.toStr) ∧
    (uniqueFirst (c.nonMissing.map Value.toStr)).Pairwise
      (fun a b => (c.nonMissing.map Value.toStr).indexOf a <
        (c.nonMissing.map Value.toStr).indexOf b) ∧
    (∀ u : List String, u.Nodup →
      (∀ a, a ∈ u ↔ a ∈ c.nonMissing.map Value.toStr) →
      u.Pairwise (fun a b => (c.nonMissing.map Value.toStr).indexOf a <
        (c.nonMissing.map Value.toStr).indexOf b) →
      u = uniqueFirst (c.nonMissing.map Value.toStr)) ∧
    ((summarizeColumn df.nRows k c).example_values = [] ↔
      c.nonNullCount = 0 ∨ k = 0) := by
  have hmem : summarizeColumn df.nRows k c ∈ (summarize_dataset df k).columns :=
    List.mem_map_of_mem (summarizeColumn df.nRows k) hc
  have hev : (summarizeColumn df.nRows k c).example_values =
      (if c.nonNullCount > 0 then
        (uniqueFirst (c.nonMissing.map Value.toStr)).take k else []) := rfl
  have heq : (summarizeColumn df.nRows k c).example_values =
      (uniqueFirst (c.nonMissing.map Value.toStr)).take k := by
    rw [hev]
    by_cases h0 : c.nonNullCount > 0
    · rw [if_pos h0]
    · rw [if_neg h0]
      have h00 : c.nonMissing = [] :=
        List.length_eq_zero.mp (Nat.eq_zero_of_not_pos h0)
      rw [h00]
      simp [uniqueFirst, uniqueFirstAux]
  refine ⟨hmem, heq, uniqueFirst_nodup _, mem_uniqueFirst_iff _,
    uniqueFirst_pairwise_indexOf _,
    eq_uniqueFirst_of_nodup_mem_indexOf _, ?_⟩
  rw [heq, List.take_eq_nil_iff, uniqueFirst_eq_nil_iff, List.map_eq_nil_iff]
  constructor
  · rintro (hk | hnil)
    · exact Or.inr hk
    · exact Or.inl (List.length_eq_zero.mpr hnil)
  · rintro (hn | hk)
    · exact Or.inr (List.length_eq_zero.mp hn)
    · exact Or.inl hk

/-- C10 amended, witnessed on a column holding the number `1` and the
string `"1"`: the two distinct values stringify identically, so the
deduplicated sequence keeps a single entry, and `example_values` is its
first-3 truncation, namely `["1"]`. -/
theorem claim_c10_witness :
    (summarizeColumn 2 3 ⟨"a", Dtype.object,
      [some (Value.num 1), some (Value.str "1")]⟩).example_values =
      (uniqueFirst ((Column.nonMissing ⟨"a", Dtype.object,
        [some (Value.num 1), some (Value.str "1")]⟩).map Value.toStr)).take 3 ∧
    (summarizeColumn 2 3 ⟨"a", Dtype.object,
      [some (Value.num 1), some (Value.str "1")]⟩).example_values = ["1"] ∧
    ((summarizeColumn 2 3 ⟨"a", Dtype.object,
      [some (Value.num 1), some (Value.str "1")]⟩).example_values = [] ↔
      Column.nonNullCount ⟨"a", Dtype.object,
        [some (Value.num 1), some (Value.str "1")]⟩ = 0 ∨ (3 : ℕ) = 0) :=
  ⟨(claim_c10_example_values ⟨2, [⟨"a", Dtype.object,
      [some (Value.num 1), some (Value.str "1")]⟩]⟩ 3
      ⟨"a", Dtype.object, [some (Value.num 1), some (Value.str "1")]⟩
      (by decide)).2.1,
   by decide,
   (claim_c10_example_values ⟨2, [⟨"a", Dtype.object,
      [some (Value.num 1), some (Value.str "1")]⟩]⟩ 3
      ⟨"a", Dtype.object, [some (Value.num 1), some (Value.str "1")]⟩
      (by decide)).2.2.2.2.2.2⟩
